import Mathlib

/-!
Verification of the DataManagement timestamp-replay engine.

This file gives a shallow embedding of the core of the repository:

* `TimeB` with its millisecond arithmetic and comparison
  (`TimestampTools.h`);
* the line-oriented timestamp reader `ReadTimestamp`
  (`ReadTimestamp.cpp` / `ReadTimestamp.h`): `GetNextTimestamp`,
  `Rewind`, `SearchDataForTimestamp`;
* the byte source `DataFile` (`DataFile.cpp`): `Seek`, `Tell`,
  `Rewind`, `Read`, `Write`, with the pipe forward-seek emulation;
* the framed raw reader `ReadTimestampRawFile.GetFrame`
  (`ReadTimestampRawFile.cpp`).

Modelling conventions:

* C machine integers are embedded as `Int`/`Nat`; conversions that are
  modular in C (casts to `int`, to `unsigned short`) are made explicit
  (`toInt32`, `% 65536`).  Signed overflow inside an arithmetic type is
  undefined behaviour in C++ and is embedded as exact `Int` arithmetic.
* The timestamp file behind a `ReadTimestamp` is embedded at line
  granularity: a list whose entries are the `sscanf` outcome of each
  line (`some (timestamp, endOfTimestampPosition)` when the
  `"%d.%d%*[ \t]%n"` pattern matches, `none` for a junk line), plus a
  flag telling whether the last line ends with a newline (stdio sets
  the end-of-file indicator while successfully reading a final
  unterminated line).  `ftell`/`fseek` values are line indices: the
  reader only ever seeks to offsets previously returned by `ftell` at
  line starts, so this abstraction is exact.
* The byte source behind a `DataFile` is embedded at byte granularity
  with ghost instrumentation (`readLog`, `seekCalls`) recording the
  OS-level reads and the number of `Seek` calls.
-/

/-- Embedding of `struct timeb` as used by the repository: `time` is the
(64-bit signed) seconds field, `millitm` the `unsigned short`
milliseconds field.  The `timezone`/`dstflag` fields are only ever
copied, never read, and are omitted. -/
structure TimeB where
  time : Int
  millitm : Nat
  deriving DecidableEq, Repr

/-- Conversion of an integer to a C `int` (32-bit two's complement),
modelling the modular behaviour of the cast. -/
def toInt32 (x : Int) : Int :=
  (x + 2147483648) % 4294967296 - 2147483648

/-- Embedding of `CompareTime` (`TimestampTools.h`, lines 96-99):
`return (int)((t1.time - t2.time)*1000 + (t1.millitm-t2.millitm));`.
The 64-bit millisecond difference is truncated by the cast to `int`. -/
def CompareTime (t1 t2 : TimeB) : Int :=
  toInt32 ((t1.time - t2.time) * 1000 + ((t1.millitm : Int) - (t2.millitm : Int)))

/-- Embedding of the non-negative branch of `operator+=`
(`TimestampTools.h`, lines 37-56), taking the millisecond amount as a
`Nat`.  The store back into the `unsigned short` field `millitm` is
modular (`% 65536`). -/
def timebAddCore (t : TimeB) (ms : Nat) : TimeB :=
  let secondsToAdd := ms / 1000
  let millisecondsToAdd := ms % 1000
  let m1 := (t.millitm + millisecondsToAdd) % 65536
  if m1 ≥ 1000 then
    { time := t.time + (secondsToAdd + m1 / 1000), millitm := m1 % 1000 }
  else
    { time := t.time + secondsToAdd, millitm := m1 }

/-- Embedding of the non-negative branch of `operator-=`
(`TimestampTools.h`, lines 63-86).  In the borrow branch the C code
computes `1000 + tmp % 1000` with `tmp` negative; `%` truncates toward
zero in C, embedded with `Int.tmod`. -/
def timebSubCore (t : TimeB) (ms : Nat) : TimeB :=
  let secondsToMin := ms / 1000
  let millisecondsToMin := ms % 1000
  if millisecondsToMin > t.millitm then
    let tmp : Int := (t.millitm : Int) - (millisecondsToMin : Int)
    { time := t.time - ((secondsToMin : Int) + 1),
      millitm := (1000 + Int.tmod tmp 1000).toNat % 65536 }
  else
    { time := t.time - (secondsToMin : Int), millitm := (t.millitm - millisecondsToMin) % 65536 }

/-- Embedding of `operator+=(TimeB&, int)`: a negative amount delegates
to the subtraction operator with the negated amount. -/
def timebAdd (t : TimeB) (ms : Int) : TimeB :=
  if ms < 0 then timebSubCore t (-ms).toNat else timebAddCore t ms.toNat

/-- Embedding of `operator-=(TimeB&, int)`: a negative amount delegates
to the addition operator with the negated amount. -/
def timebSub (t : TimeB) (ms : Int) : TimeB :=
  if ms < 0 then timebAddCore t (-ms).toNat else timebSubCore t ms.toNat

/-- The exact (untruncated) millisecond difference of two timestamps. -/
def timebDiffMs (a b : TimeB) : Int :=
  (a.time - b.time) * 1000 + ((a.millitm : Int) - (b.millitm : Int))

/-- Truncated remainder of a non-positive value of magnitude smaller
than the (positive) divisor is the value itself. -/
theorem tmod_small_neg (x n : Int) (hn : 0 < n) (h1 : -n < x) (h2 : x ≤ 0) :
    Int.tmod x n = x := by
  have h3 : (-x).tdiv n = 0 := Int.tdiv_eq_zero_of_lt (by omega) (by omega)
  have h4 : x.tdiv n = 0 := by
    have h5 := Int.neg_tdiv (-x) n
    rw [Int.neg_neg, h3] at h5
    simpa using h5
  rw [Int.tmod_def, h4, Int.mul_zero, Int.sub_zero]

/-- C7 (counterexample): `CompareTime` does not return the exact
millisecond-resolution difference for every pair of timestamps: the
cast to `int` truncates.  At `a = 3000000.000 s`, `b = 0.000 s` the
exact difference is `3000000000 ms` but `CompareTime` returns
`-1294967296`. -/
theorem compareTime_not_exact :
    CompareTime ⟨3000000, 0⟩ ⟨0, 0⟩ ≠
      ((3000000 : Int) - 0) * 1000 + ((0 : Int) - 0) := by
  decide

/-- C7 (amended): `CompareTime` returns the exact signed difference
`(a.seconds - b.seconds)*1000 + (a.milliseconds - b.milliseconds)`
whenever that difference fits in a 32-bit signed `int`; in general it
returns that difference reduced to 32-bit two's complement. -/
theorem compareTime_exact_in_range (a b : TimeB)
    (h1 : -2147483648 ≤ timebDiffMs a b) (h2 : timebDiffMs a b < 2147483648) :
    CompareTime a b = timebDiffMs a b := by
  unfold CompareTime toInt32
  unfold timebDiffMs at h1 h2 ⊢
  omega

/-- C7 witness: the amended theorem evaluated at the concrete pair
`a = 1.100`, `b = 1.000`, whose difference is 100 ms. -/
theorem compareTime_exact_in_range_witness :
    CompareTime ⟨1, 100⟩ ⟨1, 0⟩ = timebDiffMs ⟨1, 100⟩ ⟨1, 0⟩ :=
  compareTime_exact_in_range ⟨1, 100⟩ ⟨1, 0⟩ (by decide) (by decide)

/-- C8: for every timestamp whose milliseconds field lies in `[0,1000)`
and every non-negative millisecond amount, both the addition and the
subtraction operator leave the milliseconds field normalized in
`[0,1000)` and preserve the total millisecond value (carrying into or
borrowing from the seconds field); concretely,
`{1 s, 900 ms} + 200 ms = {2 s, 100 ms}` and
`{1 s, 0 ms} - 1 ms = {0 s, 999 ms}`. -/
theorem timeb_arith_normalized (t : TimeB) (ms : Int)
    (hm : t.millitm < 1000) (hms : 0 ≤ ms) :
    (timebAdd t ms).millitm < 1000 ∧
    (timebSub t ms).millitm < 1000 ∧
    (timebAdd t ms).time * 1000 + ((timebAdd t ms).millitm : Int) =
      t.time * 1000 + (t.millitm : Int) + ms ∧
    (timebSub t ms).time * 1000 + ((timebSub t ms).millitm : Int) =
      t.time * 1000 + (t.millitm : Int) - ms ∧
    timebAdd ⟨1, 900⟩ 200 = ⟨2, 100⟩ ∧
    timebSub ⟨1, 0⟩ 1 = ⟨0, 999⟩ := by
  have hadd : timebAdd t ms = timebAddCore t ms.toNat := by
    unfold timebAdd
    rw [if_neg (by omega)]
  have hsub : timebSub t ms = timebSubCore t ms.toNat := by
    unfold timebSub
    rw [if_neg (by omega)]
  have htm : Int.tmod ((t.millitm : Int) - ((ms.toNat % 1000 : Nat) : Int)) 1000 =
      (t.millitm : Int) - ((ms.toNat % 1000 : Nat) : Int) ∨
      ¬ ms.toNat % 1000 > t.millitm := by
    by_cases hgt : ms.toNat % 1000 > t.millitm
    · exact Or.inl (tmod_small_neg _ _ (by omega) (by omega) (by omega))
    · exact Or.inr hgt
  refine ⟨?_, ?_, ?_, ?_, by decide, by decide⟩
  · rw [hadd]; unfold timebAddCore
    dsimp only; split <;> dsimp only <;> omega
  · rw [hsub]; unfold timebSubCore
    dsimp only; split <;> dsimp only <;> rcases htm with h9 | h9 <;> omega
  · rw [hadd]; unfold timebAddCore
    dsimp only; split <;> dsimp only <;> omega
  · rw [hsub]; unfold timebSubCore
    dsimp only; split <;> dsimp only <;> rcases htm with h9 | h9 <;> omega

/-- C8 witness: the normalization theorem evaluated at
`t = {5 s, 250 ms}` and `ms = 1800`. -/
theorem timeb_arith_normalized_witness :
    (timebAdd ⟨5, 250⟩ 1800).millitm < 1000 :=
  (timeb_arith_normalized ⟨5, 250⟩ 1800 (by decide) (by decide)).1

/-- Embedding of the timestamp file behind a `ReadTimestamp`, at line
granularity.  Each entry of `lines` is the `sscanf("%d.%d%*[ \t]%n")`
outcome of one line: `some (timestamp, endOfTimestampPosition)` when
the pattern matches, `none` for a junk line.  `finalNewline` tells
whether the last line is newline-terminated; when it is not, stdio
sets the end-of-file indicator while successfully reading that last
line.  `pos` is the index of the next line to read; `ftell`/`fseek`
are only ever used at line starts, so line indices embed the byte
offsets exactly.  `eof` is the stdio end-of-file indicator (set by a
read that touches end of file, cleared by `fseek`). -/
structure FileState where
  lines : List (Option (TimeB × Nat))
  finalNewline : Bool
  pos : Nat
  eof : Bool
  deriving DecidableEq, Repr

/-- State of a `ReadTimestamp` whose `DataFile fin` is open
(`ReadTimestamp.h`, lines 88-111).  `prevPos0`/`prevPos1` are
`PreviousTimestampPosInFile[0]`/`[1]` (sentinel `-1`).  The contents
of `LineBuffer` are not tracked, only `EndOfTimestampPosition`. -/
structure RTState where
  file : FileState
  current : TimeB
  currentInit : Bool
  previous : TimeB
  prevPos0 : Int
  prevPos1 : Int
  endOfTimestampPosition : Nat
  deriving DecidableEq, Repr

namespace ReadTimestamp

/-- State right after construction plus `Reinit()` with a successful
open (`ReadTimestamp.cpp`, lines 56-76): position 0, cleared history
and current timestamp.  The C++ member `PreviousTimestamp` is not
initialized by the constructor, but it is always overwritten before
being read; it is embedded as zero. -/
def reinitState (lines : List (Option (TimeB × Nat))) (finalNewline : Bool) : RTState :=
  { file := { lines := lines, finalNewline := finalNewline, pos := 0, eof := false },
    current := ⟨0, 0⟩, currentInit := false, previous := ⟨0, 0⟩,
    prevPos0 := -1, prevPos1 := -1, endOfTimestampPosition := 0 }

/-- The `while(!feof(fin))` loop of `GetNextTimestamp`
(`ReadTimestamp.cpp`, lines 209-249): remember the line-start position
(`AddTimestampPos`), `fgets` a line (failure sets the end-of-file
indicator and breaks), copy the current timestamp into
`PreviousTimestamp`, then try to parse; a junk line continues the
loop, a parsed line becomes the current timestamp. -/
def getNextLoop (s : RTState) : Bool × RTState :=
  if s.file.eof = true then (false, s)
  else
    let s1 : RTState := { s with prevPos0 := s.prevPos1, prevPos1 := (s.file.pos : Int) }
    if h : s1.file.pos < s1.file.lines.length then
      let ln := s1.file.lines.get ⟨s1.file.pos, h⟩
      let e2 : Bool := if s1.file.pos + 1 = s1.file.lines.length ∧ s1.file.finalNewline = false then true else s1.file.eof
      let s2 : RTState := { s1 with file := { s1.file with pos := s1.file.pos + 1, eof := e2 } }
      let s3 : RTState := { s2 with previous := s2.current }
      match ln with
      | none => getNextLoop s3
      | some (t, len) =>
        (true, { s3 with current := t, endOfTimestampPosition := len, currentInit := true })
    else
      (false, { s1 with file := { s1.file with eof := true } })
termination_by s.file.lines.length - s.file.pos
decreasing_by
  simp_all
  omega

/-- Embedding of `ReadTimestamp::GetNextTimestamp`
(`ReadTimestamp.cpp`, lines 191-250) for an open reader: at the
end-of-file indicator it returns whether a current record exists
without touching the state; otherwise it runs the read loop. -/
def GetNextTimestamp (s : RTState) : Bool × RTState :=
  if s.file.eof = true then (s.currentInit, s)
  else getNextLoop s

/-- Embedding of `ReadTimestamp::Rewind` (`ReadTimestamp.cpp`, lines
256-274) for an open reader: when the older stored line-start offset
is present, seek there (which clears the end-of-file indicator),
clear the history and zero `PreviousTimestamp`. -/
def Rewind (s : RTState) : Bool × RTState :=
  if s.prevPos0 ≠ -1 then
    (true, { s with file := { s.file with pos := s.prevPos0.toNat, eof := false }, prevPos0 := -1, prevPos1 := -1, previous := ⟨0, 0⟩ })
  else (false, s)

/-- Termination measure for the search loop: remaining lines count
double, plus one while the end-of-file indicator is unset. -/
def searchMeasure (s : RTState) : Nat :=
  2 * (s.file.lines.length - s.file.pos) + (if s.file.eof = true then 0 else 1)

/-- The state transformation a single successful `fgets` performs:
advance one line (setting the end-of-file indicator when the consumed
line is a final unterminated one), push the line start into the
position history, and copy the current timestamp into
`PreviousTimestamp`. -/
def stepState (s : RTState) : RTState :=
  { s with file := { s.file with pos := s.file.pos + 1, eof := if s.file.pos + 1 = s.file.lines.length ∧ s.file.finalNewline = false then true else s.file.eof }, prevPos0 := s.prevPos1, prevPos1 := (s.file.pos : Int), previous := s.current }

/-- With the end-of-file indicator set, the read loop is not entered. -/
theorem getNextLoop_eof (s : RTState) (h : s.file.eof = true) :
    getNextLoop s = (false, s) := by
  rw [getNextLoop, if_pos h]

/-- A read attempt past the last line fails, records the attempted
position in the history, and sets the end-of-file indicator. -/
theorem getNextLoop_past (s : RTState) (h : s.file.eof = false)
    (h2 : ¬ s.file.pos < s.file.lines.length) :
    getNextLoop s = (false, { s with file := { s.file with eof := true }, prevPos0 := s.prevPos1, prevPos1 := (s.file.pos : Int) }) := by
  rw [getNextLoop, if_neg (by simp [h])]
  dsimp only
  rw [dif_neg h2]

/-- Reading a junk line records it in the history, overwrites
`PreviousTimestamp`, and continues the loop. -/
theorem getNextLoop_junk (s : RTState) (h : s.file.eof = false)
    (hlt : s.file.pos < s.file.lines.length)
    (hline : s.file.lines.get ⟨s.file.pos, hlt⟩ = none) :
    getNextLoop s = getNextLoop (stepState s) := by
  rw [getNextLoop, if_neg (by simp [h])]
  dsimp only
  rw [dif_pos hlt, hline]
  simp [stepState]

/-- Reading a parsed line makes it the current timestamp and succeeds. -/
theorem getNextLoop_parse (s : RTState) (h : s.file.eof = false)
    (hlt : s.file.pos < s.file.lines.length) (t : TimeB) (len : Nat)
    (hline : s.file.lines.get ⟨s.file.pos, hlt⟩ = some (t, len)) :
    getNextLoop s = (true, { stepState s with current := t, endOfTimestampPosition := len, currentInit := true }) := by
  rw [getNextLoop, if_neg (by simp [h])]
  dsimp only
  rw [dif_pos hlt, hline]
  simp [stepState]

/-- A read attempt from a state without the end-of-file indicator
strictly decreases the search measure. -/
theorem getNextLoop_measure (s : RTState) (h : s.file.eof = false) :
    searchMeasure (getNextLoop s).2 < searchMeasure s := by
  generalize hn : s.file.lines.length - s.file.pos = n
  induction n using Nat.strong_induction_on generalizing s with
  | _ n ih =>
    by_cases hlt : s.file.pos < s.file.lines.length
    · rcases hline : s.file.lines.get ⟨s.file.pos, hlt⟩ with _ | ⟨t, len⟩
      · rw [getNextLoop_junk s h hlt hline]
        by_cases hc : s.file.pos + 1 = s.file.lines.length ∧ s.file.finalNewline = false
        · rw [getNextLoop_eof _ (by simp [stepState, hc])]
          simp [searchMeasure, stepState, hc, h]
        · have h6 : (stepState s).file.eof = false := by simp [stepState, hc, h]
          have h7 := ih (s.file.lines.length - (s.file.pos + 1)) (by omega) (stepState s) h6 (by simp [stepState])
          have h8 : searchMeasure (stepState s) < searchMeasure s := by
            simp [searchMeasure, stepState, hc, h]
            omega
          omega
      · rw [getNextLoop_parse s h hlt t len hline]
        by_cases hc : s.file.pos + 1 = s.file.lines.length ∧ s.file.finalNewline = false
        · simp [searchMeasure, stepState, hc, h]
          try omega
        · simp [searchMeasure, stepState, hc, h]
          try omega
    · rw [getNextLoop_past s h hlt]
      simp [searchMeasure, h]
      try omega

/-- The `while(CurrentTimestampIsInitialized)` loop of
`SearchDataForTimestamp` (`ReadTimestamp.cpp`, lines 122-173).  With a
current record, compare the requested timestamp against it: when the
request is in the future, either accept a last record at most 100 ms
stale (at end-of-stream) or invalidate the record and advance; when
the request is in the past, fail at end-of-stream, and otherwise
rewind one step and succeed when the stored previous timestamp has a
non-zero seconds field and lies within the validity window, else
fail; on an exact match succeed. -/
def searchLoop (req : TimeB) (vt : Int) (s : RTState) : Bool × RTState :=
  if s.currentInit = true then
    if CompareTime req s.current > 0 then
      if s.file.eof = true then (s.currentInit && decide (CompareTime req s.current ≤ 100), s)
      else searchLoop req vt (GetNextTimestamp { s with endOfTimestampPosition := 0, currentInit := false }).2
    else if CompareTime req s.current < 0 then
      if s.file.eof = true then (false, s)
      else if s.previous.time ≠ 0 ∧ CompareTime req s.previous > vt then
        (true, (GetNextTimestamp (Rewind s).2).2)
      else (false, s)
    else (true, s)
  else (false, s)
termination_by searchMeasure s
decreasing_by
  rename_i h1 h2
  have h9 : ({ s with endOfTimestampPosition := 0, currentInit := false } : RTState).file.eof = false := by
    simp_all
  have h10 := getNextLoop_measure { s with endOfTimestampPosition := 0, currentInit := false } h9
  rw [GetNextTimestamp, if_neg (by simp_all)]
  exact h10

/-- Embedding of `ReadTimestamp::SearchDataForTimestamp`
(`ReadTimestamp.cpp`, lines 95-176) for an open reader (the
`fin == NULL` branches re-open the file and are outside this model):
negate the validity window, return the current-record flag when the
end-of-file indicator is already set, fetch a first record when none
is current, then run the search loop. -/
def SearchDataForTimestamp (s : RTState) (RequestedTimestamp : TimeB) (ValidityTimeInMs : Nat) : Bool × RTState :=
  let ValidityTime : Int := -(ValidityTimeInMs : Int)
  if s.file.eof = true then (s.currentInit, s)
  else
    let s0 := if s.currentInit = false then (GetNextTimestamp s).2 else s
    searchLoop RequestedTimestamp ValidityTime s0

end ReadTimestamp

open ReadTimestamp

/-- Reinitialized reader over the two-line timestamp file
`[1.000, 1.200]` (newline-terminated lines). -/
def twoLineInit : RTState :=
  reinitState [some (⟨1, 0⟩, 6), some (⟨1, 200⟩, 6)] true

/-- C1 (code evaluation at the failing input): on the file
`[1.000, 1.200]` with tolerance 33 ms, the code snaps the request
`1.020` back to `1.000` as the claim states, but it also *succeeds*
on the request `1.100` (snapping to `1.000`, drift 100 ms > 33 ms)
where the claim and the function's own documentation require failure:
the tolerance test `CompareTime(req, previous) > -tolerance` accepts
every previous record that is not after the request. -/
theorem searchData_tolerance_code_eval :
    (SearchDataForTimestamp twoLineInit ⟨1, 20⟩ 33).1 = true ∧
    (SearchDataForTimestamp twoLineInit ⟨1, 20⟩ 33).2.current = ⟨1, 0⟩ ∧
    (SearchDataForTimestamp twoLineInit ⟨1, 100⟩ 33).1 = true ∧
    (SearchDataForTimestamp twoLineInit ⟨1, 100⟩ 33).2.current = ⟨1, 0⟩ := by
  refine ⟨?_, ?_, ?_, ?_⟩ <;>
    simp [twoLineInit, SearchDataForTimestamp, searchLoop, GetNextTimestamp, getNextLoop,
      reinitState, CompareTime, toInt32, Rewind]

/-- Reinitialized reader over the one-line timestamp file `[5.000]`
whose single line is not newline-terminated, so reading it also sets
the end-of-file indicator. -/
def lastLineInit : RTState :=
  reinitState [some (⟨5, 0⟩, 6)] false

/-- C2: inside the search loop, when the requested timestamp is after
the current record and the end-of-file indicator is set, the search
returns success exactly when the staleness is at most 100 ms, leaving
the state untouched; concretely, on a file ending at `5.000`, the
request `5.050` succeeds and the request `5.200` fails. -/
theorem search_eof_grace (s : RTState) (req : TimeB) (vt : Int)
    (h1 : s.currentInit = true) (h2 : s.file.eof = true)
    (h3 : CompareTime req s.current > 0) :
    ((searchLoop req vt s).1 = true ↔ CompareTime req s.current ≤ 100) ∧
    (searchLoop req vt s).2 = s ∧
    (SearchDataForTimestamp lastLineInit ⟨5, 50⟩ 33).1 = true ∧
    (SearchDataForTimestamp lastLineInit ⟨5, 200⟩ 33).1 = false := by
  refine ⟨?_, ?_, ?_, ?_⟩
  · rw [searchLoop, if_pos h1, if_pos h3, if_pos h2]
    simp [h1]
  · rw [searchLoop, if_pos h1, if_pos h3, if_pos h2]
  · simp [lastLineInit, SearchDataForTimestamp, searchLoop, GetNextTimestamp, getNextLoop,
      reinitState, CompareTime, toInt32, Rewind]
  · simp [lastLineInit, SearchDataForTimestamp, searchLoop, GetNextTimestamp, getNextLoop,
      reinitState, CompareTime, toInt32, Rewind]

/-- C2 witness: the loop-level grace rule evaluated at a concrete
exhausted state whose current record is `5.000` and request `5.050`. -/
theorem search_eof_grace_witness :
    (searchLoop ⟨5, 50⟩ (-33) ⟨⟨[], true, 0, true⟩, ⟨5, 0⟩, true, ⟨0, 0⟩, -1, -1, 0⟩).1 = true :=
  ((search_eof_grace ⟨⟨[], true, 0, true⟩, ⟨5, 0⟩, true, ⟨0, 0⟩, -1, -1, 0⟩ ⟨5, 50⟩ (-33)
    rfl rfl (by decide)).1).mpr (by decide)

/-- Reinitialized reader over the two-line timestamp file whose
timestamps have a zero seconds field: `[0.100, 0.300]`. -/
def zeroSecInit : RTState :=
  reinitState [some (⟨0, 100⟩, 6), some (⟨0, 300⟩, 6)] true

/-- C9: the backward-snap branch of the search requires the stored
previous timestamp to have a non-zero seconds field: with a previous
record whose seconds are 0, an overshoot fails regardless of the
validity window; a successful `Rewind` itself resets the previous
timestamp to zero; concretely, on the file `[0.100, 0.300]` a request
for `0.200` fails for every tolerance. -/
theorem search_zero_seconds_previous (s : RTState) (req : TimeB) (vt : Int) (tol : Nat)
    (h1 : s.currentInit = true) (h2 : s.file.eof = false)
    (h3 : CompareTime req s.current < 0) (h4 : s.previous.time = 0) :
    searchLoop req vt s = (false, s) ∧
    ((Rewind s).1 = true → (Rewind s).2.previous = ⟨0, 0⟩) ∧
    (SearchDataForTimestamp zeroSecInit ⟨0, 200⟩ tol).1 = false := by
  refine ⟨?_, ?_, ?_⟩
  · rw [searchLoop, if_pos h1, if_neg (by omega), if_pos h3, if_neg (by simp [h2]),
      if_neg (by simp [h4])]
  · by_cases hp : s.prevPos0 ≠ -1 <;> simp [Rewind, hp]
  · simp [zeroSecInit, SearchDataForTimestamp, searchLoop, GetNextTimestamp, getNextLoop,
      reinitState, CompareTime, toInt32, Rewind]

/-- C9 witness: the zero-seconds-previous rule evaluated at a concrete
state whose previous record is `0.100` and current record `0.300`,
with request `0.200`. -/
theorem search_zero_seconds_previous_witness :
    searchLoop ⟨0, 200⟩ (-1000) ⟨⟨[], true, 2, false⟩, ⟨0, 300⟩, true, ⟨0, 100⟩, 0, 1, 6⟩ =
      (false, ⟨⟨[], true, 2, false⟩, ⟨0, 300⟩, true, ⟨0, 100⟩, 0, 1, 6⟩) :=
  (search_zero_seconds_previous ⟨⟨[], true, 2, false⟩, ⟨0, 300⟩, true, ⟨0, 100⟩, 0, 1, 6⟩
    ⟨0, 200⟩ (-1000) 0 rfl rfl (by decide) rfl).1

/-- State of a reader after `k` consecutive `GetNextTimestamp` calls. -/
def gnIter (k : Nat) (s : RTState) : RTState :=
  match k with
  | 0 => s
  | k + 1 => (GetNextTimestamp (gnIter k s)).2

/-- Total millisecond value of a timestamp. -/
def timebMsVal (t : TimeB) : Int :=
  t.time * 1000 + (t.millitm : Int)

/-- Boolean check that a list of parsed lines carries non-decreasing
timestamps (millisecond-resolution values). -/
def nonDecreasingB : List (TimeB × Nat) → Bool
  | [] => true
  | [_] => true
  | a :: b :: r => decide (timebMsVal a.1 ≤ timebMsVal b.1) && nonDecreasingB (b :: r)

/-- C4 (counterexample): on a one-line file, a first
`GetNextTimestamp` succeeds and a second one fails, so only one line
has been read since `Reinit`; yet `Rewind` then returns success,
because the failed read attempt also pushed its start position into
the two-slot history. -/
theorem rewind_single_line_counterexample :
    (GetNextTimestamp (reinitState [some (⟨1, 0⟩, 4)] true)).1 = true ∧
    (GetNextTimestamp (GetNextTimestamp (reinitState [some (⟨1, 0⟩, 4)] true)).2).1 = false ∧
    (Rewind (GetNextTimestamp (GetNextTimestamp (reinitState [some (⟨1, 0⟩, 4)] true)).2).2).1 = true := by
  refine ⟨?_, ?_, ?_⟩ <;> simp [GetNextTimestamp, getNextLoop, reinitState, Rewind]

/-- Reinitialized reader over the two-line timestamp file
`[1.000, 2.000]`. -/
def pairInit : RTState :=
  reinitState [some (⟨1, 0⟩, 2), some (⟨2, 0⟩, 2)] true

/-- C4 (amended): `Rewind` succeeds exactly when the older slot of the
position history is filled, in which case it seeks there, clears the
history, zeroes the previous timestamp and clears the end-of-file
indicator; it fails when fewer than two `fgets` read attempts
(successful or not) have been made since the last `Reinit` or
successful `Rewind`: in particular it fails right after `Reinit` and
after a single call that read one parsed line; after two consecutive
successful `GetNextTimestamp` calls a first `Rewind` succeeds, moving
back to the older stored line start, and a second immediate `Rewind`
fails. -/
theorem rewind_one_step_bound (s : RTState) (hp : s.prevPos0 ≠ -1) :
    Rewind s = (true, { s with file := { s.file with pos := s.prevPos0.toNat, eof := false }, prevPos0 := -1, prevPos1 := -1, previous := ⟨0, 0⟩ }) ∧
    (∀ s2 : RTState, s2.prevPos0 = -1 → Rewind s2 = (false, s2)) ∧
    (∀ (ls : List (Option (TimeB × Nat))) (fl : Bool), (Rewind (reinitState ls fl)).1 = false) ∧
    (∀ (x : TimeB × Nat) (r : List (Option (TimeB × Nat))) (fl : Bool),
      (Rewind (GetNextTimestamp (reinitState (some x :: r) fl)).2).1 = false) ∧
    (Rewind (gnIter 2 pairInit)).1 = true ∧
    (Rewind (gnIter 2 pairInit)).2.file.pos = 0 ∧
    (Rewind (Rewind (gnIter 2 pairInit)).2).1 = false := by
  refine ⟨?_, ?_, ?_, ?_, ?_, ?_, ?_⟩
  · rw [Rewind, if_pos hp]
  · intro s2 h
    rw [Rewind, if_neg (by simp [h])]
  · intro ls fl
    simp [Rewind, reinitState]
  · intro x r fl
    rw [GetNextTimestamp, if_neg (by simp [reinitState])]
    rw [getNextLoop_parse _ (by simp [reinitState]) (by simp [reinitState]) x.1 x.2
      (by simp [reinitState])]
    simp [Rewind, stepState, reinitState]
  · simp [gnIter, pairInit, GetNextTimestamp, getNextLoop, reinitState, Rewind]
  · simp [gnIter, pairInit, GetNextTimestamp, getNextLoop, reinitState, Rewind]
  · simp [gnIter, pairInit, GetNextTimestamp, getNextLoop, reinitState, Rewind]

/-- C4 witness: the amended rewind rule evaluated at a concrete state
whose history holds the line starts 0 and 1. -/
theorem rewind_one_step_bound_witness :
    Rewind ⟨⟨[], true, 2, false⟩, ⟨2, 0⟩, true, ⟨1, 0⟩, 0, 1, 2⟩ =
      (true, ⟨⟨[], true, 0, false⟩, ⟨2, 0⟩, true, ⟨0, 0⟩, -1, -1, 2⟩) :=
  (rewind_one_step_bound ⟨⟨[], true, 2, false⟩, ⟨2, 0⟩, true, ⟨1, 0⟩, 0, 1, 2⟩ (by decide)).1

/-- Invariant of the forward scan: after `k` calls (with
`1 ≤ k ≤ N`) on a fully parsed `N`-line newline-terminated file, the
reader sits at line `k` with the `k`-th timestamp current and the
end-of-file indicator unset. -/
theorem gnIter_inv (L : List (TimeB × Nat)) (k : Nat) (hk0 : 1 ≤ k) (hk : k ≤ L.length) :
    ∃ prev p0 p1 e,
      gnIter k (reinitState (L.map some) true) =
        ⟨⟨L.map some, true, k, false⟩, (L.get ⟨k - 1, by omega⟩).1, true, prev, p0, p1, e⟩ := by
  induction k with
  | zero => omega
  | succ k ih =>
    by_cases hk1 : k = 0
    · subst hk1
      refine ⟨⟨0, 0⟩, -1, 0, (L.get ⟨0, by omega⟩).2, ?_⟩
      show (GetNextTimestamp (gnIter 0 (reinitState (L.map some) true))).2 = _
      simp only [gnIter]
      rw [GetNextTimestamp, if_neg (by simp [reinitState])]
      rw [getNextLoop_parse _ (by simp [reinitState]) (by simp [reinitState]; omega)
        (L.get ⟨0, by omega⟩).1 (L.get ⟨0, by omega⟩).2 (by simp [reinitState])]
      simp [stepState, reinitState]
    · have hk2 : 1 ≤ k := by omega
      obtain ⟨prev, p0, p1, e, hstate⟩ := ih hk2 (by omega)
      refine ⟨(L.get ⟨k - 1, by omega⟩).1, p1, (k : Int), (L.get ⟨k, by omega⟩).2, ?_⟩
      show (GetNextTimestamp (gnIter k (reinitState (L.map some) true))).2 = _
      rw [hstate]
      rw [GetNextTimestamp, if_neg (by simp)]
      rw [getNextLoop_parse _ (by simp) (by simp; omega)
        (L.get ⟨k, by omega⟩).1 (L.get ⟨k, by omega⟩).2 (by simp)]
      simp [stepState]

/-- C3: on a fully parsed newline-terminated file with `N`
non-decreasing timestamps, each of the first `N` `GetNextTimestamp`
calls succeeds; a call made at end-of-stream with no prior record
fails and leaves the state (hence the uninitialized flag) untouched;
a call made at end-of-stream with a prior record is an idempotent
no-op returning whether a current record exists; after the scan runs
off the end, the current timestamp still holds the `N`-th value, the
current-record flag is still set, and all further calls leave the
state unchanged. -/
theorem getNextTimestamp_monotonic_scan (L : List (TimeB × Nat))
    (hmono : nonDecreasingB L = true) (hN : 0 < L.length) :
    (∀ k, k < L.length → (GetNextTimestamp (gnIter k (reinitState (L.map some) true))).1 = true) ∧
    (∀ s : RTState, s.file.eof = true → s.currentInit = false → GetNextTimestamp s = (false, s)) ∧
    (∀ s : RTState, s.file.eof = true → GetNextTimestamp s = (s.currentInit, s)) ∧
    (gnIter (L.length + 1) (reinitState (L.map some) true)).currentInit = true ∧
    (gnIter (L.length + 1) (reinitState (L.map some) true)).current = (L.get ⟨L.length - 1, by omega⟩).1 ∧
    (∀ m : Nat, gnIter (L.length + 1 + m) (reinitState (L.map some) true) =
      gnIter (L.length + 1) (reinitState (L.map some) true)) := by
  obtain ⟨prev, p0, p1, e, hstate⟩ := gnIter_inv L L.length hN le_rfl
  have hfin : gnIter (L.length + 1) (reinitState (L.map some) true) =
      ⟨⟨L.map some, true, L.length, true⟩, (L.get ⟨L.length - 1, by omega⟩).1, true, prev, p1, (L.length : Int), e⟩ := by
    show (GetNextTimestamp (gnIter L.length (reinitState (L.map some) true))).2 = _
    rw [hstate, GetNextTimestamp, if_neg (by simp)]
    rw [getNextLoop_past _ (by simp) (by simp)]
  refine ⟨?_, ?_, ?_, ?_, ?_, ?_⟩
  · intro k hk
    rcases Nat.eq_zero_or_pos k with hk0 | hk0
    · subst hk0
      simp only [gnIter]
      rw [GetNextTimestamp, if_neg (by simp [reinitState])]
      rw [getNextLoop_parse _ (by simp [reinitState]) (by simp [reinitState]; omega)
        (L.get ⟨0, hk⟩).1 (L.get ⟨0, hk⟩).2 (by simp [reinitState])]
    · obtain ⟨prev2, q0, q1, e2, hst2⟩ := gnIter_inv L k hk0 (le_of_lt hk)
      rw [hst2, GetNextTimestamp, if_neg (by simp)]
      rw [getNextLoop_parse _ (by simp) (by simp; omega)
        (L.get ⟨k, by omega⟩).1 (L.get ⟨k, by omega⟩).2 (by simp)]
  · intro s h h2
    rw [GetNextTimestamp, if_pos h, h2]
  · intro s h
    rw [GetNextTimestamp, if_pos h]
  · rw [hfin]
  · rw [hfin]
  · intro m
    induction m with
    | zero => rfl
    | succ m ihm =>
      have hrw : L.length + 1 + (m + 1) = (L.length + 1 + m) + 1 := by omega
      rw [hrw]
      calc gnIter ((L.length + 1 + m) + 1) (reinitState (L.map some) true)
          = (GetNextTimestamp (gnIter (L.length + 1 + m) (reinitState (L.map some) true))).2 := rfl
        _ = (GetNextTimestamp (gnIter (L.length + 1) (reinitState (L.map some) true))).2 := by rw [ihm]
        _ = gnIter (L.length + 1) (reinitState (L.map some) true) := by
            rw [hfin, GetNextTimestamp, if_pos (by simp)]

/-- C3 witness: the scan theorem evaluated on the concrete two-line
file `[1.000, 2.000]`: the first call succeeds. -/
theorem getNextTimestamp_monotonic_scan_witness :
    (GetNextTimestamp (gnIter 0 (reinitState ([(⟨1, 0⟩, 2), (⟨2, 0⟩, 2)].map some) true))).1 = true :=
  (getNextTimestamp_monotonic_scan [(⟨1, 0⟩, 2), (⟨2, 0⟩, 2)] (by decide) (by decide)).1 0 (by decide)

/-- Embedding of a `DataFile` (`DataFile.h`/`DataFile.cpp`) together
with its underlying byte stream.  `pos` is the logical member `Pos`;
`osPos` is the OS file offset of a plain file; `streamRead` the number
of bytes consumed from a pipe; `streamLen` the total length of the
underlying data.  `readLog` (start, bytes consumed per OS read) and
`seekCalls` are ghost instrumentation and influence nothing. -/
structure DFState where
  isOpen : Bool
  isPipe : Bool
  pos : Int
  osPos : Int
  streamRead : Nat
  streamLen : Nat
  compressedName : String
  readLog : List (Int × Int)
  seekCalls : Nat
  deriving DecidableEq, Repr

namespace DataFile

/-- Constant `SEEK_SET` (0 on the target platform). -/
def SEEK_SET : Int := 0

/-- Constant `SEEK_CUR` (1 on the target platform). -/
def SEEK_CUR : Int := 1

/-- Constant `SEEK_END` (2 on the target platform). -/
def SEEK_END : Int := 2

/-- Constant `EBADF` (9 on the target platform), the failure code
`DataFile::Seek` returns for pipe-seek violations. -/
def EBADF : Int := 9

/-- Constant `EINVAL` (22 on the target platform). -/
def EINVAL : Int := 22

/-- `DropBufferSize`: the shared 1 MiB discard buffer
(`DataFile.h`, line 124). -/
def DropBufferSize : Int := 1048576

/-- Embedding of one stdio `fread(buffer, size, 1, f)` call on the
underlying stream: returns the number of complete items transferred
(0 or 1).  A pipe delivers its bytes sequentially; a plain file reads
at the OS offset.  When fewer than `size` bytes remain, the available
bytes are still consumed but no complete item is returned.  A
non-positive `size` transfers nothing. -/
def fread1 (st : DFState) (size : Int) : Int × DFState :=
  if size ≤ 0 then (0, st)
  else if st.isPipe = true then
    let rem : Nat := st.streamLen - st.streamRead
    if size.toNat ≤ rem then
      (1, { st with streamRead := st.streamRead + size.toNat, readLog := st.readLog ++ [((st.streamRead : Int), size)] })
    else
      (0, { st with streamRead := st.streamLen, readLog := st.readLog ++ [((st.streamRead : Int), (rem : Int))] })
  else
    let avail : Int := max 0 ((st.streamLen : Int) - st.osPos)
    if size ≤ avail then
      (1, { st with osPos := st.osPos + size, readLog := st.readLog ++ [(st.osPos, size)] })
    else
      (0, { st with osPos := st.osPos + avail, readLog := st.readLog ++ [(st.osPos, avail)] })

/-- The first component of `fread1` is 0 or, when positive `size`, 1. -/
theorem fread1_fst (st : DFState) (size : Int) :
    (fread1 st size).1 = 0 ∨ ((fread1 st size).1 = 1 ∧ 0 < size) := by
  unfold fread1
  dsimp only
  split
  · exact Or.inl rfl
  · split
    · split
      · rename_i h1 h2 h3
        exact Or.inr ⟨rfl, by omega⟩
      · exact Or.inl rfl
    · split
      · rename_i h1 h2 h3
        exact Or.inr ⟨rfl, by omega⟩
      · exact Or.inl rfl

/-- `fread1` never changes the logical position `Pos`. -/
theorem fread1_pos (st : DFState) (size : Int) : (fread1 st size).2.pos = st.pos := by
  unfold fread1
  dsimp only
  split
  · rfl
  · split <;> split <;> rfl

/-- Embedding of POSIX `fseeko` on a plain file: compute the target
offset from `whence`; a negative target or invalid `whence` fails
with -1, otherwise the OS offset moves (`Pos` is *not* updated by
`DataFile::Seek` in the plain-file branch). -/
def fseeko (st : DFState) (offset : Int) (whence : Int) : Int × DFState :=
  if whence = SEEK_SET ∨ whence = SEEK_CUR ∨ whence = SEEK_END then
    let target : Int :=
      if whence = SEEK_SET then offset
      else if whence = SEEK_CUR then st.osPos + offset
      else (st.streamLen : Int) + offset
    if target < 0 then (-1, st)
    else (0, { st with osPos := target })
  else (-1, st)

/-- The discard loop of `DataFile::Seek` for pipes (`DataFile.cpp`,
lines 348-366): while the logical position is short of the target,
read `min(DropBufferSize, (int)(offset-Pos))` bytes as one item into
the shared drop buffer; a zero-item read fails with `EBADF`,
otherwise the logical position advances by the bytes read. -/
def seekForwardLoop (st : DFState) (offset : Int) : Int × DFState :=
  if h : st.pos < offset then
    let nbToRead : Int := min DropBufferSize (toInt32 (offset - st.pos))
    let r := fread1 st nbToRead
    if r.1 = 0 then (EBADF, r.2)
    else seekForwardLoop { r.2 with pos := r.2.pos + r.1 * nbToRead } offset
  else (0, st)
termination_by (offset - st.pos).toNat
decreasing_by
  rename_i h2
  rcases fread1_fst st (min DropBufferSize (toInt32 (offset - st.pos))) with h3 | ⟨h3, h4⟩
  · exact absurd h3 h2
  · have h5 := fread1_pos st (min DropBufferSize (toInt32 (offset - st.pos)))
    simp only [h3, h5]
    omega

/-- Embedding of `DataFile::Seek` (`DataFile.cpp`, lines 318-374).
`SEEK_CUR` adds the logical position and falls through to `SEEK_SET`;
for a pipe, a target short of the logical position fails with
`EBADF`, a target at or past it runs the discard loop; `SEEK_END` on
a pipe fails with `EBADF`; other `whence` values fail with `EINVAL`;
a plain file delegates to `fseeko`.  The ghost `seekCalls` counter
records the call. -/
def Seek (st0 : DFState) (offset : Int) (whence : Int) : Int × DFState :=
  let st : DFState := { st0 with seekCalls := st0.seekCalls + 1 }
  if st.isOpen = false then (-1, st)
  else if st.isPipe = false then fseeko st offset whence
  else if whence = SEEK_CUR ∨ whence = SEEK_SET then
    let offset2 : Int := if whence = SEEK_CUR then offset + st.pos else offset
    if offset2 < st.pos then (EBADF, st)
    else seekForwardLoop st offset2
  else if whence = SEEK_END then (EBADF, st)
  else (EINVAL, st)

/-- Embedding of `DataFile::Tell` (`DataFile.cpp`, lines 379-389):
the logical position, or -1 when closed. -/
def Tell (st : DFState) : Int :=
  if st.isOpen = false then -1 else st.pos

/-- Embedding of `DataFile::Close` (`DataFile.cpp`, lines 290-310):
closes the handle or pipe and clears the pipe flag; the logical
position is left as is. -/
def Close (st : DFState) : DFState :=
  if st.isOpen = true then { st with isOpen := false, isPipe := false } else st

/-- Embedding of `DataFile::Rewind` (`DataFile.cpp`, lines 394-421):
closed files are untouched; a pipe is closed and, when a compressed
file name is remembered, respawned from scratch (fresh stream,
logical position 0 — the respawn is modelled as succeeding, as it did
when the pipe was first opened); a plain file is rewound at the OS
level only (`Pos` is *not* reset). -/
def Rewind (st : DFState) : DFState :=
  if st.isOpen = false then st
  else if st.isPipe = true then
    let st1 := Close st
    if st.compressedName.length = 0 then st1
    else { st1 with isOpen := true, isPipe := true, pos := 0, streamRead := 0 }
  else { st with osPos := 0 }

/-- Embedding of `DataFile::Read` (`DataFile.cpp`, lines 253-265) for
one item (`nmemb = 1`, the only multiplicity the readers use): on an
open file, `fread` one item of `size` bytes and advance the logical
position by the bytes of the complete items transferred. -/
def Read (st : DFState) (size : Int) : Int × DFState :=
  if st.isOpen = true then
    let r := fread1 st size
    (r.1, { r.2 with pos := r.2.pos + size * r.1 })
  else (0, st)

/-- Embedding of `DataFile::Write` (`DataFile.cpp`, lines 274-285).
The number of items the underlying `fwrite` transfers is an oracle
argument `osItems`; on an open file the logical position advances by
`size * osItems`; the function always returns `(size_t)0`. -/
def Write (st : DFState) (size nmemb osItems : Int) : Int × DFState :=
  if st.isOpen = true then (0, { st with pos := st.pos + size * osItems })
  else (0, st)

end DataFile

/-- The discard loop does nothing when the target is not ahead. -/
theorem seekForwardLoop_at (st : DFState) (offset : Int) (h : ¬ st.pos < offset) :
    DataFile.seekForwardLoop st offset = (0, st) := by
  rw [DataFile.seekForwardLoop, dif_neg h]

/-- The discard loop, run toward a target at most `2^31 - 1` bytes
ahead with enough bytes available, succeeds, advances the logical
position exactly to the target, and consumes exactly the missing
bytes from the stream. -/
theorem seekForwardLoop_ok (st : DFState) (offset : Int)
    (hpipe : st.isPipe = true)
    (h1 : st.pos ≤ offset) (h2 : offset - st.pos < 2147483648)
    (h3 : (offset - st.pos).toNat ≤ st.streamLen - st.streamRead) :
    (DataFile.seekForwardLoop st offset).1 = 0 ∧
    (DataFile.seekForwardLoop st offset).2.pos = offset ∧
    (DataFile.seekForwardLoop st offset).2.streamRead = st.streamRead + (offset - st.pos).toNat ∧
    (DataFile.seekForwardLoop st offset).2.isOpen = st.isOpen ∧
    (DataFile.seekForwardLoop st offset).2.isPipe = st.isPipe ∧
    (DataFile.seekForwardLoop st offset).2.streamLen = st.streamLen := by
  generalize hg : (offset - st.pos).toNat = n
  induction n using Nat.strong_induction_on generalizing st with
  | _ n ih =>
    by_cases hlt : st.pos < offset
    · rw [DataFile.seekForwardLoop, dif_pos hlt]
      dsimp only
      have ht : toInt32 (offset - st.pos) = offset - st.pos := by
        unfold toInt32
        omega
      rw [ht]
      have hnbpos : 0 < min DataFile.DropBufferSize (offset - st.pos) := by
        simp only [DataFile.DropBufferSize]
        omega
      have hnble : (min DataFile.DropBufferSize (offset - st.pos)).toNat ≤ st.streamLen - st.streamRead := by
        omega
      have hr : DataFile.fread1 st (min DataFile.DropBufferSize (offset - st.pos)) =
          (1, { st with streamRead := st.streamRead + (min DataFile.DropBufferSize (offset - st.pos)).toNat, readLog := st.readLog ++ [((st.streamRead : Int), min DataFile.DropBufferSize (offset - st.pos))] }) := by
        unfold DataFile.fread1
        rw [if_neg (by omega), if_pos hpipe]
        dsimp only
        rw [if_pos hnble]
      rw [hr]
      dsimp only
      rw [if_neg (by omega)]
      have hih := ih (offset - (st.pos + 1 * min DataFile.DropBufferSize (offset - st.pos))).toNat (by omega)
        { st with streamRead := st.streamRead + (min DataFile.DropBufferSize (offset - st.pos)).toNat, readLog := st.readLog ++ [((st.streamRead : Int), min DataFile.DropBufferSize (offset - st.pos))], pos := st.pos + 1 * min DataFile.DropBufferSize (offset - st.pos) }
        hpipe (by dsimp only; omega) (by dsimp only; omega) (by dsimp only; omega) rfl
      refine ⟨hih.1, hih.2.1, ?_, hih.2.2.2.1, hih.2.2.2.2.1, hih.2.2.2.2.2⟩
      rw [hih.2.2.1]
      dsimp only
      omega
    · rw [seekForwardLoop_at st offset hlt]
      dsimp only
      exact ⟨rfl, by omega, by omega, rfl, rfl, rfl⟩

/-- C5 (counterexample): seeking a pipe-backed source to a position
*equal* to the current logical position does not fail: it returns 0
(success) without consuming anything, while the claim requires
failure for every requested position less than or equal to the
current one (`EBADF`, the pipe failure code, is nonzero). -/
theorem pipe_seek_equal_counterexample :
    (DataFile.Seek ⟨true, true, 5, 0, 5, 10, "x.7z", [], 0⟩ 5 DataFile.SEEK_SET).1 = 0 ∧
    (DataFile.Seek ⟨true, true, 5, 0, 5, 10, "x.7z", [], 0⟩ 5 DataFile.SEEK_SET).2.streamRead = 5 ∧
    DataFile.EBADF ≠ (0 : Int) := by
  refine ⟨?_, ?_, by decide⟩ <;>
    simp [DataFile.Seek, DataFile.seekForwardLoop, DataFile.SEEK_SET, DataFile.SEEK_CUR, DataFile.EBADF]

/-- C5 (amended): for an open pipe-backed source, `SEEK_END` always
fails with `EBADF`; `SEEK_SET` to a position strictly below the
logical position, and `SEEK_CUR` by a negative amount, fail
immediately with `EBADF` without consuming any bytes; a seek to
exactly the current position trivially succeeds consuming nothing;
a seek `K` bytes ahead (with enough data) succeeds, consumes exactly
`K` bytes through the discard buffer, and leaves `Tell` at the
target; and rewinding to absolute position 0 is done by `Rewind`,
which closes and respawns the decompression filter, leaving `Tell`
at 0. -/
theorem pipe_seek_semantics (st : DFState) (offset : Int) (K : Nat)
    (hopen : st.isOpen = true) (hpipe : st.isPipe = true) :
    (DataFile.Seek st offset DataFile.SEEK_END).1 = DataFile.EBADF ∧
    (DataFile.Seek st offset DataFile.SEEK_END).2 = { st with seekCalls := st.seekCalls + 1 } ∧
    (offset < st.pos → DataFile.Seek st offset DataFile.SEEK_SET = (DataFile.EBADF, { st with seekCalls := st.seekCalls + 1 })) ∧
    (offset < 0 → DataFile.Seek st offset DataFile.SEEK_CUR = (DataFile.EBADF, { st with seekCalls := st.seekCalls + 1 })) ∧
    (DataFile.Seek st st.pos DataFile.SEEK_SET).1 = 0 ∧
    (DataFile.Seek st st.pos DataFile.SEEK_SET).2 = { st with seekCalls := st.seekCalls + 1 } ∧
    ((K : Int) < 2147483648 → K ≤ st.streamLen - st.streamRead →
      (DataFile.Seek st (st.pos + K) DataFile.SEEK_SET).1 = 0 ∧
      (DataFile.Seek st (st.pos + K) DataFile.SEEK_SET).2.streamRead = st.streamRead + K ∧
      DataFile.Tell (DataFile.Seek st (st.pos + K) DataFile.SEEK_SET).2 = st.pos + K) ∧
    (st.compressedName.length ≠ 0 →
      DataFile.Rewind st = { st with pos := 0, streamRead := 0 } ∧ DataFile.Tell (DataFile.Rewind st) = 0) := by
  have hbump : ∀ w o, DataFile.Seek st o w = (if w = DataFile.SEEK_CUR ∨ w = DataFile.SEEK_SET then (if (if w = DataFile.SEEK_CUR then o + st.pos else o) < st.pos then (DataFile.EBADF, { st with seekCalls := st.seekCalls + 1 }) else DataFile.seekForwardLoop { st with seekCalls := st.seekCalls + 1 } (if w = DataFile.SEEK_CUR then o + st.pos else o)) else if w = DataFile.SEEK_END then (DataFile.EBADF, { st with seekCalls := st.seekCalls + 1 }) else (DataFile.EINVAL, { st with seekCalls := st.seekCalls + 1 })) := by
    intro w o
    unfold DataFile.Seek
    dsimp only
    rw [if_neg (by simp [hopen]), if_neg (by simp [hpipe])]
  refine ⟨?_, ?_, ?_, ?_, ?_, ?_, ?_, ?_⟩
  · rw [hbump]
    rw [if_neg (by decide), if_pos rfl]
  · rw [hbump]
    rw [if_neg (by decide), if_pos rfl]
  · intro hb
    rw [hbump]
    simp [DataFile.SEEK_SET, DataFile.SEEK_CUR, hb]
  · intro hb
    have hb2 : offset + st.pos < st.pos := by omega
    rw [hbump]
    simp [DataFile.SEEK_SET, DataFile.SEEK_CUR, hb2]
  · rw [hbump]
    simp only [DataFile.SEEK_SET, DataFile.SEEK_CUR]
    rw [if_pos (by norm_num), if_neg (by norm_num), if_neg (by omega)]
    rw [seekForwardLoop_at _ _ (by dsimp only; omega)]
  · rw [hbump]
    simp only [DataFile.SEEK_SET, DataFile.SEEK_CUR]
    rw [if_pos (by norm_num), if_neg (by norm_num), if_neg (by omega)]
    rw [seekForwardLoop_at _ _ (by dsimp only; omega)]
  · intro hK1 hK2
    rw [hbump]
    simp only [DataFile.SEEK_SET, DataFile.SEEK_CUR]
    rw [if_pos (by norm_num), if_neg (by norm_num), if_neg (by omega)]
    have hfwd := seekForwardLoop_ok { st with seekCalls := st.seekCalls + 1 } (st.pos + K)
      hpipe (by dsimp only; omega) (by dsimp only; omega) (by dsimp only; omega)
    refine ⟨hfwd.1, ?_, ?_⟩
    · rw [hfwd.2.2.1]
      dsimp only
      omega
    · unfold DataFile.Tell
      rw [if_neg (by rw [hfwd.2.2.2.1]; simp [hopen])]
      rw [hfwd.2.1]
  · intro hc
    unfold DataFile.Rewind DataFile.Close
    rw [if_neg (by simp [hopen]), if_pos hpipe, if_neg hc, if_pos hopen]
    refine ⟨?_, ?_⟩
    · simp [hopen, hpipe]
    · unfold DataFile.Tell
      simp

/-- C5 witness: the amended seek semantics evaluated on a concrete
pipe at position 0 with 10 bytes available, seeking 10 ahead. -/
theorem pipe_seek_semantics_witness :
    (DataFile.Seek ⟨true, true, 0, 0, 0, 10, "x.7z", [], 0⟩ ((0 : Int) + (10 : Nat)) DataFile.SEEK_SET).1 = 0 :=
  ((pipe_seek_semantics ⟨true, true, 0, 0, 0, 10, "x.7z", [], 0⟩ 0 10 rfl rfl).2.2.2.2.2.2.1
    (by decide) (by decide)).1

/-- C10: `DataFile::Write` on an open file returns 0 no matter how
many elements the underlying `fwrite` transferred; only the logical
position advances by the bytes written. -/
theorem write_returns_zero (st : DFState) (size nmemb osItems : Int)
    (hopen : st.isOpen = true) (hb : 0 ≤ osItems) (hn : osItems ≤ nmemb) :
    (DataFile.Write st size nmemb osItems).1 = 0 ∧
    (DataFile.Write st size nmemb osItems).2 = { st with pos := st.pos + size * osItems } := by
  unfold DataFile.Write
  rw [if_pos hopen]
  exact ⟨rfl, rfl⟩

/-- C10 witness: `Write` of one 4-byte item pair on a concrete open
file returns 0. -/
theorem write_returns_zero_witness :
    (DataFile.Write ⟨true, false, 0, 0, 0, 0, "", [], 0⟩ 4 2 2).1 = 0 :=
  (write_returns_zero ⟨true, false, 0, 0, 0, 0, "", [], 0⟩ 4 2 2 rfl (by decide) (by decide)).1

/-- Embedding of a `ReadTimestampRawFile` (`ReadTimestampRawFile.h`,
lines 114-125), restricted to the frame-loading state `GetFrame`
uses.  `payloadCount` is the outcome of
`sscanf(DataBuffer, "%*d, %d")` on the current payload (the
subframe count in SubFramesMode); `rawOpens` tells whether opening
the raw file would succeed when it is not open yet. -/
structure RawState where
  fRaw : DFState
  FrameSize : Int
  StartingFrame : Int
  CurrentIndex : Int
  Mode : Nat
  NumberOfSubFrames : Int
  payloadCount : Option Int
  rawOpens : Bool
  deriving DecidableEq, Repr

namespace ReadTimestampRawFile

/-- `ReadingMode::SimpleFrameMode` (value 0). -/
def SimpleFrameMode : Nat := 0

/-- `ReadingMode::SubFramesMode` (value 1). -/
def SubFramesMode : Nat := 1

/-- A successful `DataFile::Open` of the raw file in read mode as a
plain file: fresh handle at OS offset 0 with logical position 0. -/
def openPlain (d : DFState) : DFState :=
  { d with isOpen := true, isPipe := false, pos := 0, osPos := 0, streamRead := 0 }

/-- The loading tail of `GetFrame` (`ReadTimestampRawFile.cpp`, lines
168-193): when the physical index equals the expected sequential
index, read `LoadSize` bytes in place (no seek); otherwise seek the
raw source to `Index * FrameSize` and read there; on success the
expected sequential index becomes the index one past the loaded
run. -/
def loadPart (s : RawState) (Index LoadSize : Int) : Bool × RawState :=
  if Index = s.CurrentIndex then
    let r := DataFile.Read s.fRaw LoadSize
    if r.1 ≠ 1 then (false, { s with fRaw := r.2 })
    else (true, { s with fRaw := r.2, CurrentIndex := s.CurrentIndex + s.NumberOfSubFrames })
  else
    let sk := DataFile.Seek s.fRaw (Index * s.FrameSize) DataFile.SEEK_SET
    if sk.1 ≠ 0 then (false, { s with fRaw := sk.2 })
    else
      let r := DataFile.Read sk.2 LoadSize
      if r.1 ≠ 1 then (false, { s with fRaw := r.2 })
      else (true, { s with fRaw := r.2, CurrentIndex := Index + s.NumberOfSubFrames })

/-- Embedding of `ReadTimestampRawFile::GetFrame`
(`ReadTimestampRawFile.cpp`, lines 123-194): compute the physical
index `WantedIndex - StartingFrame`, open the raw file if needed, in
SubFramesMode parse the subframe count (parse failure fails, count 0
succeeds immediately with nothing loaded), and delegate to the
loading tail with `FrameSize * count` (or one frame in simple
mode). -/
def GetFrame (s0 : RawState) (WantedIndex : Int) : Bool × RawState :=
  let Index := WantedIndex - s0.StartingFrame
  let s1 : RawState := { s0 with NumberOfSubFrames := 0 }
  if s1.fRaw.isOpen = false ∧ s1.rawOpens = false then (false, s1)
  else
    let s : RawState := if s1.fRaw.isOpen = false then { s1 with fRaw := openPlain s1.fRaw } else s1
    if s.Mode = SubFramesMode then
      match s.payloadCount with
      | none => (false, s)
      | some c =>
        let s2 : RawState := { s with NumberOfSubFrames := c }
        if c = 0 then (true, s2)
        else loadPart s2 Index (s2.FrameSize * c)
    else
      loadPart { s with NumberOfSubFrames := 1 } Index s.FrameSize

end ReadTimestampRawFile

open ReadTimestampRawFile in
/-- C6 (counterexample): in SubframeGroup mode with a parsed subframe
count of 0, `GetFrame` succeeds but returns *without* updating the
expected-next sequential index: requesting frame 5 from a reader
expecting 0 leaves the index at 0, not `physicalIndex + subframeCount
= 5`. -/
theorem getFrame_zero_subframes_counterexample :
    (GetFrame ⟨⟨true, false, 0, 0, 0, 100, "", [], 0⟩, 4, 0, 0, 1, 7, some 0, true⟩ 5).1 = true ∧
    (GetFrame ⟨⟨true, false, 0, 0, 0, 100, "", [], 0⟩, 4, 0, 0, 1, 7, some 0, true⟩ 5).2.CurrentIndex ≠
      5 - (0 : Int) + (GetFrame ⟨⟨true, false, 0, 0, 0, 100, "", [], 0⟩, 4, 0, 0, 1, 7, some 0, true⟩ 5).2.NumberOfSubFrames := by
  refine ⟨?_, ?_⟩ <;> simp [GetFrame, SubFramesMode]

open ReadTimestampRawFile in
/-- C6 (amended): `GetFrame(requestedIndex)` computes
`physicalIndex = requestedIndex - startingFrameNumber`; in
SubframeGroup mode a parsed subframe count of 0 succeeds with an
empty load and leaves the expected-next index unchanged; when the
physical index equals the expected next sequential index it reads in
place without issuing any seek; otherwise it seeks the raw source to
`physicalIndex * frameSizeBytes` and reads there (with
`startingFrameNumber = 100`, requesting frame 103 reads exactly the
bytes `[3*frameSize, 4*frameSize)`); on every successful load the
expected-next index becomes `physicalIndex + subframeCount`. -/
theorem getFrame_semantics (s : RawState) (w : Int)
    (hopen : s.fRaw.isOpen = true) (hplain : s.fRaw.isPipe = false) (hF : 0 < s.FrameSize) :
    (s.Mode = 1 → s.payloadCount = some 0 → GetFrame s w = (true, { s with NumberOfSubFrames := 0 })) ∧
    (s.Mode = 0 → w - s.StartingFrame = s.CurrentIndex → 0 ≤ s.fRaw.osPos →
      s.fRaw.osPos + s.FrameSize ≤ (s.fRaw.streamLen : Int) →
      GetFrame s w = (true, { s with NumberOfSubFrames := 1, CurrentIndex := s.CurrentIndex + 1, fRaw := { s.fRaw with osPos := s.fRaw.osPos + s.FrameSize, pos := s.fRaw.pos + s.FrameSize, readLog := s.fRaw.readLog ++ [(s.fRaw.osPos, s.FrameSize)] } })) ∧
    (s.Mode = 0 → s.StartingFrame = 100 → ¬ s.CurrentIndex = 3 →
      4 * s.FrameSize ≤ (s.fRaw.streamLen : Int) →
      (GetFrame s 103).1 = true ∧
      (GetFrame s 103).2.fRaw.readLog = s.fRaw.readLog ++ [(3 * s.FrameSize, s.FrameSize)] ∧
      (GetFrame s 103).2.fRaw.osPos = 4 * s.FrameSize ∧
      (GetFrame s 103).2.CurrentIndex = 3 + 1 ∧
      (GetFrame s 103).2.fRaw.seekCalls = s.fRaw.seekCalls + 1) := by
  obtain ⟨⟨o, ip, pos, osP, sr, sl, cn, lg, sc⟩, F, SF, CI, M, N, pc, ro⟩ := s
  dsimp only at hopen hplain hF
  subst hopen
  subst hplain
  refine ⟨?_, ?_, ?_⟩
  · intro hm hp
    dsimp only at hm hp
    subst hm
    subst hp
    simp [GetFrame, SubFramesMode]
  · intro hm hidx hos hlen
    dsimp only at hm hidx hos hlen
    subst hm
    subst hidx
    have hle : ¬ (F ≤ 0) := by omega
    have hread : DataFile.Read ⟨true, false, pos, osP, sr, sl, cn, lg, sc⟩ F =
        (1, ⟨true, false, pos + F * 1, osP + F, sr, sl, cn, lg ++ [(osP, F)], sc⟩) := by
      unfold DataFile.Read DataFile.fread1
      rw [if_pos rfl]
      dsimp only
      rw [if_neg hle, if_neg (by simp)]
      try dsimp only
      rw [if_pos (by omega)]
    simp [GetFrame, loadPart, SubFramesMode, hread]
  · intro hm hstart hC3 hlen
    dsimp only at hm hstart hC3 hlen
    subst hm
    subst hstart
    have hC3b : ¬ ((3 : Int) = CI) := by omega
    have hle : ¬ (F ≤ 0) := by omega
    have hseek : DataFile.Seek ⟨true, false, pos, osP, sr, sl, cn, lg, sc⟩ (3 * F) DataFile.SEEK_SET =
        (0, ⟨true, false, pos, 3 * F, sr, sl, cn, lg, sc + 1⟩) := by
      unfold DataFile.Seek DataFile.fseeko
      dsimp only
      rw [if_neg (by simp), if_pos rfl]
      rw [if_pos (by simp [DataFile.SEEK_SET, DataFile.SEEK_CUR, DataFile.SEEK_END])]
      try dsimp only
      rw [if_pos rfl, if_neg (by omega)]
    have hread : DataFile.Read ⟨true, false, pos, 3 * F, sr, sl, cn, lg, sc + 1⟩ F =
        (1, ⟨true, false, pos + F * 1, 3 * F + F, sr, sl, cn, lg ++ [(3 * F, F)], sc + 1⟩) := by
      unfold DataFile.Read DataFile.fread1
      rw [if_pos rfl]
      dsimp only
      rw [if_neg hle, if_neg (by simp)]
      try dsimp only
      rw [if_pos (by omega)]
    refine ⟨?_, ?_, ?_, ?_, ?_⟩ <;>
      simp [GetFrame, loadPart, SubFramesMode, hC3b, hseek, hread] <;>
      omega

open ReadTimestampRawFile in
/-- C6 witness: the zero-subframe-count rule evaluated on a concrete
open reader in SubFramesMode. -/
theorem getFrame_semantics_witness :
    GetFrame ⟨⟨true, false, 0, 0, 0, 100, "", [], 0⟩, 4, 0, 2, 1, 7, some 0, true⟩ 9 =
      (true, ⟨⟨true, false, 0, 0, 0, 100, "", [], 0⟩, 4, 0, 2, 1, 0, some 0, true⟩) :=
  (getFrame_semantics ⟨⟨true, false, 0, 0, 0, 100, "", [], 0⟩, 4, 0, 2, 1, 7, some 0, true⟩ 9
    rfl rfl (by decide)).1 rfl rfl
